import Mathlib

/-!
Verification of `analysis/query_perf_by_db_and_row_count/generate_diagram.py`.

The script reads benchmark CSV files, renders one grouped bar chart per file
(`plot_query_performance`), renders one aggregate geometric-mean chart across
all files (`plot_geometric_mean_performance`), and drives both over every CSV
in the working directory (`process_all_csvs`).

Embedding conventions:
  * a CSV file is a name together with either a parse error (pandas
    `read_csv` raising) or a `Table`;
  * a `Table` records which columns are present (`cols`) and its rows as
    typed `Entry` values; the script only reads a column after checking its
    presence (or raises a `KeyError`, which we model as `Except.error`);
  * latencies are rationals, row counts are integers; matplotlib calls that
    only affect pixels (ticks, legend, colours, figure size, dpi) are not
    modelled, while everything that determines chart content is: database
    order, row-count order, bar width, bar values, and value labels;
  * pandas sorts group keys (`pivot_table` with its default `sort=True`, and
    `groupby`); we model that with a stable insertion sort `sortLe`;
  * pandas `unique()` is modelled with `List.dedup`; every place the script
    uses it, the result is either sorted immediately afterwards or used only
    for membership tests, so the orientation of duplicate removal is
    irrelevant;
  * `scipy.stats.gmean` is `exp` of the mean of logarithms, over `ℝ`.
-/

/-! ### Sorting infrastructure (model of pandas' sorted group keys) -/

/-- Insert `a` into `l` in front of the first element `b` with `le a b`. -/
def insertLe {α : Type} (le : α → α → Bool) (a : α) : List α → List α
  | [] => [a]
  | b :: bs => if le a b then a :: b :: bs else b :: insertLe le a bs

/-- Stable insertion sort by the boolean comparison `le`. -/
def sortLe {α : Type} (le : α → α → Bool) : List α → List α
  | [] => []
  | a :: as => insertLe le a (sortLe le as)

theorem perm_insertLe {α : Type} (le : α → α → Bool) (a : α) :
    ∀ l : List α, List.Perm (insertLe le a l) (a :: l) := by
  intro l
  induction l with
  | nil => simp [insertLe]
  | cons b bs ih =>
    by_cases h : le a b
    · simp [insertLe, h]
    · simp only [insertLe, h, Bool.false_eq_true, if_false]
      exact (ih.cons b).trans (List.Perm.swap a b bs)

theorem perm_sortLe {α : Type} (le : α → α → Bool) :
    ∀ l : List α, List.Perm (sortLe le l) l := by
  intro l
  induction l with
  | nil => simp [sortLe]
  | cons a as ih =>
    exact (perm_insertLe le a (sortLe le as)).trans (ih.cons a)

theorem mem_sortLe {α : Type} {le : α → α → Bool} {a : α} {l : List α} :
    a ∈ sortLe le l ↔ a ∈ l :=
  (perm_sortLe le l).mem_iff

theorem nodup_sortLe {α : Type} {le : α → α → Bool} {l : List α} (h : l.Nodup) :
    (sortLe le l).Nodup :=
  (perm_sortLe le l).nodup_iff.mpr h

theorem length_sortLe {α : Type} (le : α → α → Bool) (l : List α) :
    (sortLe le l).length = l.length :=
  (perm_sortLe le l).length_eq

theorem pairwise_insertLe {α : Type} {le : α → α → Bool}
    (htrans : ∀ a b c, le a b = true → le b c = true → le a c = true)
    (htotal : ∀ a b, le a b = true ∨ le b a = true) (a : α) :
    ∀ {l : List α}, List.Pairwise (fun x y => le x y = true) l →
      List.Pairwise (fun x y => le x y = true) (insertLe le a l) := by
  intro l hl
  induction l with
  | nil => simp [insertLe]
  | cons b bs ih =>
    rcases List.pairwise_cons.mp hl with ⟨hb, hbs⟩
    by_cases h : le a b
    · simp only [insertLe, h, if_true]
      refine List.pairwise_cons.mpr ⟨?_, hl⟩
      intro x hx
      rcases List.mem_cons.mp hx with rfl | hx
      · exact h
      · exact htrans a b x h (hb x hx)
    · simp only [insertLe, h, Bool.false_eq_true, if_false]
      refine List.pairwise_cons.mpr ⟨?_, ih hbs⟩
      intro x hx
      rcases List.mem_cons.mp ((perm_insertLe le a bs).mem_iff.mp hx) with hxa | hxb
      · subst hxa
        rcases htotal b x with hba | hab
        · exact hba
        · exact absurd hab h
      · exact hb x hxb

theorem pairwise_sortLe {α : Type} {le : α → α → Bool}
    (htrans : ∀ a b c, le a b = true → le b c = true → le a c = true)
    (htotal : ∀ a b, le a b = true ∨ le b a = true) :
    ∀ l : List α, List.Pairwise (fun x y => le x y = true) (sortLe le l) := by
  intro l
  induction l with
  | nil => simp [sortLe]
  | cons a as ih => exact pairwise_insertLe htrans htotal a ih

/-- Sorted-by-`le` lists that are permutations of one another are equal when
`le` is antisymmetric. -/
theorem eq_of_perm_of_pairwise_le {α : Type} {le : α → α → Bool}
    (hanti : ∀ a b, le a b = true → le b a = true → a = b)
    {l₁ l₂ : List α} (hp : List.Perm l₁ l₂)
    (h₁ : List.Pairwise (fun x y => le x y = true) l₁)
    (h₂ : List.Pairwise (fun x y => le x y = true) l₂) : l₁ = l₂ := by
  haveI : IsAntisymm α (fun x y => le x y = true) := ⟨hanti⟩
  exact List.eq_of_perm_of_sorted hp h₁ h₂

/-- Filtering a duplicate-free list for one of its members yields exactly that
member. -/
theorem filter_beq_of_nodup {α : Type} [DecidableEq α] :
    ∀ {l : List α}, l.Nodup → ∀ {a : α}, a ∈ l →
      l.filter (fun x => x == a) = [a] := by
  intro l
  induction l with
  | nil => intro _ a ha; cases ha
  | cons b bs ih =>
    intro hnd a ha
    rcases List.nodup_cons.mp hnd with ⟨hb, hbs⟩
    rcases List.mem_cons.mp ha with rfl | ha
    · have : bs.filter (fun x => x == a) = [] := by
        apply List.filter_eq_nil_iff.mpr
        intro x hx
        simp only [beq_iff_eq]
        intro hxa
        exact hb (hxa ▸ hx)
      simp [List.filter_cons, this]
    · have hba : (b == a) = false := by
        simp only [beq_eq_false_iff_ne, ne_eq]
        intro h
        exact hb (h ▸ ha)
      simp [List.filter_cons, hba, ih hbs ha]

/-! ### Data model -/

/-- One measurement row of a CSV table.  Fields mirror the columns the script
reads: `DB`, `rows`, `query`, and the configurable latency column (`time`).
A field is only meaningful when the corresponding column is listed in the
table's `cols`; the script never reads a column without its presence being
established (missing-column accesses are modelled as errors). -/
structure Entry where
  db : String
  rows : Int
  query : String
  time : ℚ
deriving DecidableEq

/-- A parsed CSV table: the set of column names pandas found in the header,
plus the typed rows. -/
structure Table where
  cols : List String
  entries : List Entry
deriving DecidableEq

/-- A CSV file on disk: its name and either the parsed table or the message
of the exception `pd.read_csv` raised. -/
structure CsvFile where
  name : String
  content : Except String Table

/-- Comparison used for string-keyed sorting: pandas compares Python strings
lexicographically by code point, which is the lexicographic order on
`String.data`. -/
def strLeb (s t : String) : Bool := decide (s.data ≤ t.data)

/-- Lexicographic comparison on `(DB, rows)` pivot keys. -/
def dbRowLeb (a b : String × Int) : Bool :=
  decide (a.1.data < b.1.data) || (a.1 == b.1 && decide (a.2 ≤ b.2))

/-- Lexicographic comparison on `(rows, query)` group keys. -/
def rowQueryLeb (a b : Int × String) : Bool :=
  decide (a.1 < b.1) || (a.1 == b.1 && decide (a.2.data ≤ b.2.data))

/-- Comparison for sorting row counts. -/
def intLeb (a b : Int) : Bool := decide (a ≤ b)

/-- Required columns checked by both renderers (line 15 / line 137):
`["DB", "rows", time_col]`. -/
def requiredCols (timeCol : String) : List String := ["DB", "rows", timeCol]

/-- Fixed preference order of the three designated engines (line 26). -/
def preferred_order : List String := ["Postgres", "SQLite", "HSQLDB"]

/-! ### Per-file renderer: `plot_query_performance` -/

/-- Arithmetic mean, the `aggfunc="mean"` of `pivot_table` (line 21). -/
def arithMean (l : List ℚ) : ℚ := l.sum / l.length

/-- Distinct `(DB, rows)` keys of the pivot, sorted lexicographically:
`pivot_table` groups by its index and sorts the group keys (its default
`sort=True`). -/
def pivotKeys (es : List Entry) : List (String × Int) :=
  sortLe dbRowLeb ((es.map fun e => (e.db, e.rows)).dedup)

/-- Aggregated value of one pivot cell: mean latency of the entries with the
given `(DB, rows)` key. -/
def pivotVal (es : List Entry) (k : String × Int) : ℚ :=
  arithMean ((es.filter fun e => e.db == k.1 && e.rows == k.2).map Entry.time)

/-- Model of `df.pivot_table(index=["DB", "rows"], values=time_col,
aggfunc="mean").reset_index()` (lines 21-23): one row per distinct
`(DB, rows)` key, sorted, carrying the mean latency.  The later categorical
re-sort (lines 34-35) only permutes these rows and the script reads them
exclusively through keyed lookups, so it is not modelled separately. -/
def pivot_table (es : List Entry) : List ((String × Int) × ℚ) :=
  (pivotKeys es).map fun k => (k, pivotVal es k)

/-- Model of `pivot_df["DB"].unique()` (line 27): first occurrence of each
DB in the sorted pivot, i.e. the distinct DB names in sorted order. -/
def file_available_dbs (es : List Entry) : List String :=
  ((pivot_table es).map fun p => p.1.1).dedup

/-- Database display order (lines 28-31): preferred engines present in the
data first, then the remaining DBs of `available_dbs` not already listed. -/
def file_dbs (es : List Entry) : List String :=
  (preferred_order.filter fun db => (file_available_dbs es).contains db) ++
    ((file_available_dbs es).filter fun db =>
      !(preferred_order.filter fun d => (file_available_dbs es).contains d).contains db)

/-- Model of `rows = sorted(pivot_df["rows"].unique())` (line 38). -/
def file_rows (es : List Entry) : List Int :=
  sortLe intLeb (((pivot_table es).map fun p => p.1.2).dedup)

/-- Bar width (line 42): `0.35 if len(rows) <= 2 else 0.2`. -/
def file_bar_width (es : List Entry) : ℚ :=
  if (file_rows es).length ≤ 2 then 35/100 else 1/5

/-- Value of the bar for `(db, rc)` (lines 48-54): first matching pivot row,
or `0` when the combination is absent. -/
def file_value (es : List Entry) (db : String) (rc : Int) : ℚ :=
  match (pivot_table es).filter (fun p => p.1.1 == db && p.1.2 == rc) with
  | [] => 0
  | p :: _ => p.2

/-- Bar values of one row-count group, one per database in display order. -/
def file_values (es : List Entry) (rc : Int) : List ℚ :=
  (file_dbs es).map fun db => file_value es db rc

/-- All bar groups of the per-file chart (the loop of lines 45-61). -/
def file_bars (es : List Entry) : List (Int × List ℚ) :=
  (file_rows es).map fun rc => (rc, file_values es rc)

/-! ### Value labels (lines 77-102 and 226-245, identical logic) -/

/-- One text annotation above a bar. -/
structure BarLabel (α : Type) where
  xpos : ℚ
  ypos : α
  text : α
deriving DecidableEq

/-- Model of `max([v for v in values if v > 0]) if any(v > 0 for v in values)
else 1` (lines 89-91 / 232-234). -/
def barGroupMax {α : Type} [LinearOrderedField α] (values : List α) : α :=
  match values.filter (fun v => decide (0 < v)) with
  | [] => 1
  | v :: vs => vs.foldl max v

/-- Labels of one bar group (inner loop, lines 92-102): bar `j` of group `i`
gets a label at `x = j + i * bar_width`, `y = v + max_val * 0.02` when its
value `v` is positive; `j` counts up from the given start index. -/
def rowLabels {α : Type} [LinearOrderedField α] (bw : ℚ) (i : ℕ) (m : α) :
    ℕ → List α → List (BarLabel α)
  | _, [] => []
  | j, v :: vs =>
    (if 0 < v then [⟨(j : ℚ) + (i : ℚ) * bw, v + m * (2/100), v⟩] else []) ++
      rowLabels bw i m (j + 1) vs

/-- Labels of all bar groups (outer loop, lines 78-102): group `i` uses its
own `max_val`. -/
def makeLabels {α : Type} [LinearOrderedField α] (bw : ℚ) :
    ℕ → List (Int × List α) → List (BarLabel α)
  | _, [] => []
  | i, (_, values) :: rest =>
    rowLabels bw i (barGroupMax values) 0 values ++ makeLabels bw (i + 1) rest

/-- Value labels of the per-file chart. -/
def file_labels (es : List Entry) : List (BarLabel ℚ) :=
  makeLabels (file_bar_width es) 0 (file_bars es)

/-! ### Per-file renderer output -/

/-- Content-determining parts of one rendered chart. -/
structure Chart (α : Type) where
  title : String
  dbs : List String
  rowCounts : List Int
  barWidth : ℚ
  bars : List (Int × List α)
  labels : List (BarLabel α)
deriving DecidableEq

/-- Observable result of one `plot_query_performance` call: console lines,
the image file written (if any), and the chart drawn (if any). -/
structure PerFileOutput where
  log : List String
  image : Option String
  chart : Option (Chart ℚ)
deriving DecidableEq

/-- Console line of the missing-column soft skip (line 17). -/
def skipMessage (timeCol name : String) : String :=
  s!"Skipping {name}: Missing required columns {requiredCols timeCol}"

/-- Console line of the per-file exception handler (line 118). -/
def processErrorMessage (name msg : String) : String :=
  s!"Error processing {name}: {msg}"

/-- Console line after saving a per-file plot (line 110). -/
def savedMessage (out : String) : String := s!"Saved plot: {out}"

/-- Model of `os.path.splitext(os.path.basename(csv_file))[0]` (line 70) for
the script's inputs, which come from `glob.glob("*.csv")`: directory-free
names ending in `.csv`, whose last extension `splitext` strips. -/
def baseName (s : String) : String :=
  if s.data.reverse.take 4 = ['v', 's', 'c', '.']
  then ⟨s.data.take (s.data.length - 4)⟩ else s

/-- Body of `plot_query_performance` (lines 10-115), i.e. everything inside
the `try`.  Exceptions are `Except.error`: a failing `pd.read_csv` (line 12)
and `df["query"].iloc[0]` on a zero-row table (line 71). -/
def plot_query_performance_body (timeCol : String) (savePlots : Bool)
    (f : CsvFile) : Except String PerFileOutput := do
  let df ← f.content
  if !((requiredCols timeCol).all fun c => df.cols.contains c) then
    return { log := [skipMessage timeCol f.name], image := none, chart := none }
  let base := baseName f.name
  let queryName ←
    if df.cols.contains "query" then
      match df.entries with
      | [] => Except.error "single positional indexer is out-of-bounds"
      | e :: _ => pure e.query
    else pure base
  let chart : Chart ℚ :=
    { title := s!"Query Performance: {queryName}"
      dbs := file_dbs df.entries
      rowCounts := file_rows df.entries
      barWidth := file_bar_width df.entries
      bars := file_bars df.entries
      labels := file_labels df.entries }
  if savePlots then
    return { log := [savedMessage (base ++ "_performance.png")],
             image := some (base ++ "_performance.png"), chart := some chart }
  else
    return { log := [], image := none, chart := some chart }

/-- Full `plot_query_performance` (lines 9-118): the `except` clause turns
any exception into a logged error line and a normal return. -/
def plot_query_performance (timeCol : String) (savePlots : Bool)
    (f : CsvFile) : PerFileOutput :=
  match plot_query_performance_body timeCol savePlots f with
  | .ok out => out
  | .error msg => { log := [processErrorMessage f.name msg], image := none, chart := none }

/-- Per-file loop of `process_all_csvs` (lines 303-308). -/
def run_files (timeCol : String) (savePlots : Bool) : List CsvFile → List PerFileOutput
  | [] => []
  | f :: fs => plot_query_performance timeCol savePlots f :: run_files timeCol savePlots fs

/-! ### Cross-file aggregator: `plot_geometric_mean_performance` -/

/-- The three designated engines (line 131).  The script builds a Python set;
we keep the literal's element order and use the list only for membership and
subset tests. -/
def target_dbs : List String := ["Postgres", "SQLite", "HSQLDB"]

/-- Fixed database order of the aggregate chart (line 180). -/
def db_order : List String := ["Postgres", "SQLite", "HSQLDB"]

/-- One qualifying data point (the dict appended at lines 152-160). -/
structure AggRec where
  db : String
  rows : Int
  query : String
  time : ℚ
  file : String
deriving DecidableEq

/-- Distinct `(rows, query)` keys of `df.groupby(["rows", "query"])`
(line 143), sorted as pandas sorts group keys. -/
def groupKeys (es : List Entry) : List (Int × String) :=
  sortLe rowQueryLeb ((es.map fun e => (e.rows, e.query)).dedup)

/-- Records one file contributes (lines 143-160): for each `(rows, query)`
group whose databases cover all three designated engines, every record of a
designated engine with strictly positive latency, tagged with the file. -/
def file_qualifying (name : String) (es : List Entry) : List AggRec :=
  (groupKeys es).flatMap fun k =>
    let grp := es.filter fun e => e.rows == k.1 && e.query == k.2
    if target_dbs.all fun d => (grp.map Entry.db).contains d then
      (grp.filter fun e => target_dbs.contains e.db && decide (0 < e.time)).map
        fun e => { db := e.db, rows := k.1, query := k.2, time := e.time, file := name }
    else []

/-- Per-file step of the collection loop (lines 134-160, inside its `try`):
a failing `read_csv` propagates as an error; a file missing a required column
is silently skipped (`continue`, line 140); `groupby(["rows", "query"])` on a
table without a `query` column raises a `KeyError` (line 143). -/
def collect_file (timeCol : String) (f : CsvFile) : Except String (List AggRec) :=
  match f.content with
  | .error msg => .error msg
  | .ok df =>
    if !((requiredCols timeCol).all fun c => df.cols.contains c) then .ok []
    else if !(df.cols.contains "query") then .error "query"
    else .ok (file_qualifying f.name df.entries)

/-- Console line of the per-file exception handler inside the aggregator
(line 163). -/
def readErrorMessage (name msg : String) : String :=
  s!"Error reading {name}: {msg}"

/-- Whole collection loop (lines 133-164): concatenated qualifying records of
all files, plus the error lines of files whose processing raised. -/
def collect_all (timeCol : String) : List CsvFile → List AggRec × List String
  | [] => ([], [])
  | f :: fs =>
    let rest := collect_all timeCol fs
    match collect_file timeCol f with
    | .ok recs => (recs ++ rest.1, rest.2)
    | .error msg => (rest.1, readErrorMessage f.name msg :: rest.2)

/-- The rows of `combined_df` (line 173). -/
def agg_records (timeCol : String) (files : List CsvFile) : List AggRec :=
  (collect_all timeCol files).1

/-- Model of `[db for db in db_order if db in combined_df["DB"].unique()]`
(line 181). -/
def agg_available_dbs (timeCol : String) (files : List CsvFile) : List String :=
  db_order.filter fun d =>
    (((agg_records timeCol files).map AggRec.db).dedup).contains d

/-- Model of `rows = sorted(combined_df["rows"].unique())` (line 182). -/
def agg_rows (timeCol : String) (files : List CsvFile) : List Int :=
  sortLe intLeb (((agg_records timeCol files).map AggRec.rows).dedup)

/-- Latency values feeding one cell of `geometric_means` (lines 189-191). -/
def agg_times (timeCol : String) (files : List CsvFile) (db : String) (rc : Int) :
    List ℚ :=
  ((agg_records timeCol files).filter fun r => r.db == db && r.rows == rc).map
    AggRec.time

/-- Model of `scipy.stats.gmean`: the exponential of the mean of natural
logarithms. -/
noncomputable def gmean (l : List ℚ) : ℝ :=
  Real.exp ((l.map fun q => Real.log (q : ℝ)).sum / l.length)

/-- One cell of `geometric_means` (lines 192-196): geometric mean of the
matching latencies, or `0` when there are none. -/
noncomputable def agg_gmean (timeCol : String) (files : List CsvFile)
    (db : String) (rc : Int) : ℝ :=
  if 0 < (agg_times timeCol files db rc).length
  then gmean (agg_times timeCol files db rc) else 0

/-- Bar width of the aggregate chart (line 200). -/
def agg_bar_width (timeCol : String) (files : List CsvFile) : ℚ :=
  if (agg_rows timeCol files).length ≤ 2 then 35/100 else 1/5

/-- Bar groups of the aggregate chart (lines 203-213). -/
noncomputable def agg_bars (timeCol : String) (files : List CsvFile) :
    List (Int × List ℝ) :=
  (agg_rows timeCol files).map fun rc =>
    (rc, (agg_available_dbs timeCol files).map fun db => agg_gmean timeCol files db rc)

/-- Value labels of the aggregate chart (lines 227-245), same logic as the
per-file chart. -/
noncomputable def agg_labels (timeCol : String) (files : List CsvFile) :
    List (BarLabel ℝ) :=
  makeLabels (agg_bar_width timeCol files) 0 (agg_bars timeCol files)

/-- Plain-text summary table (lines 268-280): one row per database, one cell
per row count, containing the geometric mean. -/
noncomputable def agg_summary (timeCol : String) (files : List CsvFile) :
    List (String × List (Int × ℝ)) :=
  (agg_available_dbs timeCol files).map fun db =>
    (db, (agg_rows timeCol files).map fun rc => (rc, agg_gmean timeCol files db rc))

/-- Number of distinct `(query, rows)` combinations among the qualifying
records (line 176). -/
def agg_combo_count (timeCol : String) (files : List CsvFile) : ℕ :=
  (((agg_records timeCol files).map fun r => (r.query, r.rows)).dedup).length

/-- Observable result of `plot_geometric_mean_performance`. -/
structure AggOutput where
  log : List String
  image : Option String
  chart : Option (Chart ℝ)
  summary : Option (List (String × List (Int × ℝ)))

/-- Console line when no CSV files exist (line 127). -/
def noFilesMessage : String := "No CSV files found for geometric mean calculation."

/-- Console line when no qualifying records were found (lines 167-169). -/
def noDataMessage : String :=
  "No data found where all three databases (Postgres, SQLite, HSQLDB) ran the same queries."

/-- Console line reporting the qualifying data (lines 175-177). -/
def foundMessage (points combos : ℕ) : String :=
  s!"Found {points} qualifying data points across {combos} query/dataset combinations"

/-- Console line after saving the aggregate plot (line 262). -/
def savedGeoMessage : String :=
  "Saved geometric mean plot: geometric_mean_performance.png"

/-- Title of the aggregate chart (lines 220-222). -/
def aggTitle : String :=
  "Overall Performance: Geometric Mean Across All Comparable Queries"

/-- Full `plot_geometric_mean_performance` (lines 121-283): early exits when
there are no CSV files or no qualifying records, otherwise the chart, the
saved image, and the printed summary table.  Nothing inside the outer `try`
can raise in this model (every per-file exception is caught by the inner
handler at lines 162-164), so the outer `except` (lines 282-283) is not a
reachable branch. -/
noncomputable def plot_geometric_mean_performance (timeCol : String)
    (savePlots : Bool) (files : List CsvFile) : AggOutput :=
  if files.isEmpty then
    { log := [noFilesMessage], image := none, chart := none, summary := none }
  else if (agg_records timeCol files).isEmpty then
    { log := (collect_all timeCol files).2 ++ [noDataMessage],
      image := none, chart := none, summary := none }
  else
    { log := (collect_all timeCol files).2 ++
        [foundMessage (agg_records timeCol files).length (agg_combo_count timeCol files)] ++
        (if savePlots then [savedGeoMessage] else []),
      image := if savePlots then some "geometric_mean_performance.png" else none,
      chart := some
        { title := aggTitle
          dbs := agg_available_dbs timeCol files
          rowCounts := agg_rows timeCol files
          barWidth := agg_bar_width timeCol files
          bars := agg_bars timeCol files
          labels := agg_labels timeCol files },
      summary := some (agg_summary timeCol files) }

/-- Console line of the driver when the directory has no CSVs (line 293). -/
def driverNoFilesMessage : String := "No CSV files found in the current directory."

/-- Observable result of `process_all_csvs`; progress banners are omitted. -/
structure ProcessResult where
  log : List String
  perFile : List PerFileOutput
  agg : Option AggOutput

/-- Driver (lines 286-314): with no CSV files it logs and returns; otherwise
it runs the per-file renderer on every file in order, then the aggregator. -/
noncomputable def process_all_csvs (timeCol : String) (savePlots : Bool)
    (files : List CsvFile) : ProcessResult :=
  if files.isEmpty then
    { log := [driverNoFilesMessage], perFile := [], agg := none }
  else
    { log := [],
      perFile := run_files timeCol savePlots files,
      agg := some (plot_geometric_mean_performance timeCol savePlots files) }

/-! ### Specification-side definitions

These restate conditions in the spec's own words; the claim theorems compare
them with the definitions translated from the script. -/

/-- The aggregate record built from entry `e` of file `name` (lines 152-160
build it from the group key and the row's fields; for a row of the group the
key components equal the row's own fields). -/
def aggRecOf (name : String) (e : Entry) : AggRec :=
  { db := e.db, rows := e.rows, query := e.query, time := e.time, file := name }

/-- Spec condition: all three designated engines appear among the databases
of `e`'s `(rows, query)` group within `es`. -/
def groupHasAll (es : List Entry) (e : Entry) : Prop :=
  ∀ d ∈ target_dbs, ∃ e' ∈ es, e'.rows = e.rows ∧ e'.query = e.query ∧ e'.db = d

/-- Spec-side database ordering: the three designated engines first, in their
fixed order, restricted to those present, followed by the other databases
present, in ascending name order. -/
def dbOrderSpec (present : List String) : List String :=
  (preferred_order.filter fun d => present.contains d) ++
    sortLe strLeb ((present.filter fun d => !preferred_order.contains d).dedup)

/-- Spec-side maximum positive value of a bar group. -/
def specPosMax {α : Type} [LinearOrderedField α] (values : List α) : α :=
  (values.filter fun v => decide (0 < v)).foldr max 0

/-- Spec-side characterisation of a chart's value labels: exactly the bars
with strictly positive value carry a label, placed at the bar's x position
and offset above the bar by 2% of the group's maximum positive value. -/
def labelSpec {α : Type} [LinearOrderedField α] (bw : ℚ)
    (bars : List (Int × List α)) (lbl : BarLabel α) : Prop :=
  ∃ (i : ℕ) (rc : Int) (values : List α) (j : ℕ) (v : α),
    bars[i]? = some (rc, values) ∧ values[j]? = some v ∧ 0 < v ∧
      lbl = ⟨(j : ℚ) + (i : ℚ) * bw, v + specPosMax values * (2/100), v⟩

/-! ### Concrete inputs used by the witnesses and counterexamples -/

/-- A table whose `(Q1, 1000)` group is covered by all three engines (plus a
fourth engine and a zero-latency row) and whose `(Q2, 1000)` group is not. -/
def c1Table : Table :=
  { cols := ["DB", "rows", "query", "Med_ms"],
    entries :=
      [{ db := "Postgres", rows := 1000, query := "Q1", time := 10 },
       { db := "SQLite", rows := 1000, query := "Q1", time := 20 },
       { db := "HSQLDB", rows := 1000, query := "Q1", time := 40 },
       { db := "Other", rows := 1000, query := "Q1", time := 5 },
       { db := "Postgres", rows := 1000, query := "Q1", time := 0 },
       { db := "Postgres", rows := 1000, query := "Q2", time := 7 },
       { db := "SQLite", rows := 1000, query := "Q2", time := 8 }] }

/-- The file carrying `c1Table`. -/
def c1File : CsvFile := { name := "mixed.csv", content := .ok c1Table }

/-- File holding only the Postgres measurement of `(Q1, 1000)`. -/
def c2FilePostgres : CsvFile :=
  { name := "q1_postgres.csv",
    content := .ok
      { cols := ["DB", "rows", "Med_ms", "query"],
        entries := [{ db := "Postgres", rows := 1000, query := "Q1", time := 10 }] } }

/-- File holding only the SQLite measurement of `(Q1, 1000)`. -/
def c2FileSQLite : CsvFile :=
  { name := "q1_sqlite.csv",
    content := .ok
      { cols := ["DB", "rows", "Med_ms", "query"],
        entries := [{ db := "SQLite", rows := 1000, query := "Q1", time := 20 }] } }

/-- File holding only the HSQLDB measurement of `(Q1, 1000)`. -/
def c2FileHSQLDB : CsvFile :=
  { name := "q1_hsqldb.csv",
    content := .ok
      { cols := ["DB", "rows", "Med_ms", "query"],
        entries := [{ db := "HSQLDB", rows := 1000, query := "Q1", time := 40 }] } }

/-- Table whose two databases are outside the preferred list and appear in
the input in anti-alphabetical order. -/
def c3Table : Table :=
  { cols := ["DB", "rows", "Med_ms"],
    entries := [{ db := "Zeta", rows := 1, query := "", time := 5 },
                { db := "Alpha", rows := 1, query := "", time := 7 }] }

/-- The file carrying `c3Table`. -/
def c3File : CsvFile := { name := "zeta.csv", content := .ok c3Table }

/-- Table missing the latency column `Med_ms`. -/
def c4Table : Table :=
  { cols := ["DB", "rows"],
    entries := [{ db := "Postgres", rows := 1, query := "", time := 3 }] }

/-- The file carrying `c4Table`. -/
def c4File : CsvFile := { name := "latency_missing.csv", content := .ok c4Table }

/-- Entries with two databases at one row count, each with duplicates. -/
def c5Entries : List Entry :=
  [{ db := "Postgres", rows := 100, query := "Q", time := 10 },
   { db := "Postgres", rows := 100, query := "Q", time := 20 },
   { db := "SQLite", rows := 100, query := "Q", time := 30 },
   { db := "SQLite", rows := 100, query := "Q", time := 50 }]

/-- A file whose parse raises inside `pd.read_csv`. -/
def c6Bad : CsvFile := { name := "corrupt.csv", content := .error "ParserError" }

/-- A well-formed file processed after the corrupt one. -/
def c6Good : CsvFile :=
  { name := "good.csv",
    content := .ok
      { cols := ["DB", "rows", "Med_ms"],
        entries := [{ db := "Postgres", rows := 1, query := "", time := 3 }] } }

/-- A file with valid columns whose only group lacks two of the three
designated engines, so it contributes no qualifying records. -/
def c7File : CsvFile :=
  { name := "only_postgres.csv",
    content := .ok
      { cols := ["DB", "rows", "Med_ms", "query"],
        entries := [{ db := "Postgres", rows := 1000, query := "Q1", time := 10 }] } }

/-- Table holding the three required columns but no `query` column. -/
def c10Table : Table :=
  { cols := ["DB", "rows", "Med_ms"],
    entries := [{ db := "Postgres", rows := 10, query := "", time := 4 }] }

/-- The file carrying `c10Table`. -/
def c10File : CsvFile := { name := "no_query.csv", content := .ok c10Table }

/-- A qualifying file processed after the `query`-less one. -/
def c10Other : CsvFile :=
  { name := "full.csv",
    content := .ok
      { cols := ["DB", "rows", "Med_ms", "query"],
        entries :=
          [{ db := "Postgres", rows := 10, query := "Q9", time := 1 },
           { db := "SQLite", rows := 10, query := "Q9", time := 2 },
           { db := "HSQLDB", rows := 10, query := "Q9", time := 3 }] } }

/-! ### Helper lemmas -/

theorem strLeb_iff (s t : String) : strLeb s t = true ↔ s.data ≤ t.data := by
  simp [strLeb]

theorem strLeb_trans : ∀ a b c : String,
    strLeb a b = true → strLeb b c = true → strLeb a c = true := by
  intro a b c hab hbc
  rw [strLeb_iff] at *
  exact le_trans hab hbc

theorem strLeb_total : ∀ a b : String, strLeb a b = true ∨ strLeb b a = true := by
  intro a b
  rcases le_total a.data b.data with h | h
  · exact Or.inl ((strLeb_iff a b).mpr h)
  · exact Or.inr ((strLeb_iff b a).mpr h)

theorem strLeb_anti : ∀ a b : String,
    strLeb a b = true → strLeb b a = true → a = b := by
  intro a b hab hba
  rw [strLeb_iff] at *
  exact String.ext (le_antisymm hab hba)

theorem dbRowLeb_iff (a b : String × Int) :
    dbRowLeb a b = true ↔ a.1.data < b.1.data ∨ (a.1 = b.1 ∧ a.2 ≤ b.2) := by
  simp [dbRowLeb]

theorem dbRowLeb_trans : ∀ a b c : String × Int,
    dbRowLeb a b = true → dbRowLeb b c = true → dbRowLeb a c = true := by
  intro a b c hab hbc
  rw [dbRowLeb_iff] at *
  rcases hab with h₁ | ⟨h₁, h₁'⟩ <;> rcases hbc with h₂ | ⟨h₂, h₂'⟩
  · exact Or.inl (lt_trans h₁ h₂)
  · exact Or.inl (h₂ ▸ h₁)
  · exact Or.inl (h₁ ▸ h₂)
  · exact Or.inr ⟨h₁.trans h₂, le_trans h₁' h₂'⟩

theorem dbRowLeb_total : ∀ a b : String × Int,
    dbRowLeb a b = true ∨ dbRowLeb b a = true := by
  intro a b
  rcases lt_trichotomy a.1.data b.1.data with h | h | h
  · exact Or.inl ((dbRowLeb_iff a b).mpr (Or.inl h))
  · have he : a.1 = b.1 := String.ext h
    rcases le_total a.2 b.2 with h' | h'
    · exact Or.inl ((dbRowLeb_iff a b).mpr (Or.inr ⟨he, h'⟩))
    · exact Or.inr ((dbRowLeb_iff b a).mpr (Or.inr ⟨he.symm, h'⟩))
  · exact Or.inr ((dbRowLeb_iff b a).mpr (Or.inl h))

theorem dbRowLeb_anti : ∀ a b : String × Int,
    dbRowLeb a b = true → dbRowLeb b a = true → a = b := by
  intro a b hab hba
  rw [dbRowLeb_iff] at *
  rcases hab with h₁ | ⟨h₁, h₁'⟩ <;> rcases hba with h₂ | ⟨h₂, h₂'⟩
  · exact absurd h₂ (lt_asymm h₁)
  · exact absurd h₁ (by rw [h₂]; exact lt_irrefl _)
  · exact absurd h₂ (by rw [h₁]; exact lt_irrefl _)
  · exact Prod.ext h₁ (le_antisymm h₁' h₂')

theorem nodup_pivotKeys (es : List Entry) : (pivotKeys es).Nodup :=
  nodup_sortLe (List.nodup_dedup _)

theorem mem_pivotKeys {es : List Entry} {k : String × Int} :
    k ∈ pivotKeys es ↔ ∃ e ∈ es, (e.db, e.rows) = k := by
  simp [pivotKeys, mem_sortLe, List.mem_dedup, List.mem_map]

theorem mem_groupKeys {es : List Entry} {k : Int × String} :
    k ∈ groupKeys es ↔ ∃ e ∈ es, (e.rows, e.query) = k := by
  simp [groupKeys, mem_sortLe, List.mem_dedup, List.mem_map]

/-- Filtering a duplicate-free list by a predicate that holds exactly at one
of its members yields exactly that member. -/
theorem filter_eq_singleton_of_nodup {α : Type} {p : α → Bool} :
    ∀ {l : List α}, l.Nodup → ∀ {a : α}, a ∈ l → (∀ x, p x = true ↔ x = a) →
      l.filter p = [a] := by
  intro l
  induction l with
  | nil => intro _ a ha; cases ha
  | cons b bs ih =>
    intro hnd a ha hp
    rcases List.nodup_cons.mp hnd with ⟨hb, hbs⟩
    rcases List.mem_cons.mp ha with rfl | ha
    · have : bs.filter p = [] := by
        apply List.filter_eq_nil_iff.mpr
        intro x hx hpx
        exact hb ((hp x).mp hpx ▸ hx)
      simp [List.filter_cons, (hp a).mpr rfl, this]
    · have hba : p b = false := by
        rw [Bool.eq_false_iff]
        intro h
        exact hb ((hp b).mp h ▸ ha)
      simp [List.filter_cons, hba, ih hbs ha hp]

theorem collect_all_append (timeCol : String) (xs ys : List CsvFile) :
    collect_all timeCol (xs ++ ys) =
      ((collect_all timeCol xs).1 ++ (collect_all timeCol ys).1,
       (collect_all timeCol xs).2 ++ (collect_all timeCol ys).2) := by
  induction xs with
  | nil => simp [collect_all]
  | cons f fs ih =>
    simp only [List.cons_append, collect_all]
    cases h : collect_file timeCol f <;> simp [h, ih]

theorem run_files_append (timeCol : String) (savePlots : Bool) (xs ys : List CsvFile) :
    run_files timeCol savePlots (xs ++ ys) =
      run_files timeCol savePlots xs ++ run_files timeCol savePlots ys := by
  induction xs with
  | nil => simp [run_files]
  | cons f fs ih => simp [run_files, ih]

/-- Membership characterisation of the records one file contributes to the
aggregate. -/
theorem mem_file_qualifying {name : String} {es : List Entry} {r : AggRec} :
    r ∈ file_qualifying name es ↔
      ∃ e ∈ es, r = aggRecOf name e ∧ groupHasAll es e ∧ e.db ∈ target_dbs ∧ 0 < e.time := by
  rw [file_qualifying, List.mem_flatMap]
  constructor
  · rintro ⟨k, hk, hrk⟩
    simp only at hrk
    by_cases hsub : (target_dbs.all fun d =>
        ((es.filter fun e => e.rows == k.1 && e.query == k.2).map Entry.db).contains d) = true
    · rw [if_pos hsub, List.mem_map] at hrk
      obtain ⟨e, he, hre⟩ := hrk
      rw [List.mem_filter] at he
      obtain ⟨hegrp, hecond⟩ := he
      rw [List.mem_filter] at hegrp
      obtain ⟨hees, hekey⟩ := hegrp
      have hkey : e.rows = k.1 ∧ e.query = k.2 := by simpa using hekey
      have hcond : e.db ∈ target_dbs ∧ 0 < e.time := by simpa using hecond
      refine ⟨e, hees, ?_, ?_, hcond.1, hcond.2⟩
      · rw [← hre]
        simp [aggRecOf, hkey.1, hkey.2]
      · intro d hd
        have hc := List.all_eq_true.mp hsub d hd
        have hmem : d ∈ (es.filter fun e => e.rows == k.1 && e.query == k.2).map Entry.db := by
          simpa using hc
        rw [List.mem_map] at hmem
        obtain ⟨e', he', he'd⟩ := hmem
        rw [List.mem_filter] at he'
        have hkey' : e'.rows = k.1 ∧ e'.query = k.2 := by simpa using he'.2
        exact ⟨e', he'.1, by rw [hkey'.1, hkey.1], by rw [hkey'.2, hkey.2], he'd⟩
    · rw [if_neg hsub] at hrk
      cases hrk
  · rintro ⟨e, he, hr, hall, hdb, hpos⟩
    refine ⟨(e.rows, e.query), mem_groupKeys.mpr ⟨e, he, rfl⟩, ?_⟩
    simp only
    have hsub : (target_dbs.all fun d =>
        ((es.filter fun x => x.rows == e.rows && x.query == e.query).map Entry.db).contains d) = true := by
      rw [List.all_eq_true]
      intro d hd
      obtain ⟨e', he', h1, h2, h3⟩ := hall d hd
      have : d ∈ (es.filter fun x => x.rows == e.rows && x.query == e.query).map Entry.db :=
        List.mem_map.mpr ⟨e', List.mem_filter.mpr ⟨he', by simp [h1, h2]⟩, h3⟩
      simpa using this
    rw [if_pos hsub, List.mem_map]
    refine ⟨e, ?_, ?_⟩
    · exact List.mem_filter.mpr ⟨List.mem_filter.mpr ⟨he, by simp⟩, by simp [hdb, hpos]⟩
    · rw [hr]
      simp [aggRecOf]

/-- A successful `collect_file` returns either nothing (missing required
columns) or the file's qualifying records. -/
theorem collect_file_ok_cases {timeCol : String} {f : CsvFile} {recs : List AggRec}
    (h : collect_file timeCol f = Except.ok recs) :
    recs = [] ∨ ∃ df : Table, f.content = Except.ok df ∧
      recs = file_qualifying f.name df.entries := by
  unfold collect_file at h
  cases hc : f.content with
  | error m => rw [hc] at h; cases h
  | ok df =>
    rw [hc] at h
    dsimp only at h
    split_ifs at h with h1 h2
    · injection h with h'
      exact Or.inl h'.symm
    · cases h
      exact Or.inr ⟨df, rfl, rfl⟩

/-- Every record of `combined_df` names one of the three designated
engines. -/
theorem agg_records_db_mem {timeCol : String} {files : List CsvFile} {r : AggRec}
    (h : r ∈ agg_records timeCol files) : r.db ∈ target_dbs := by
  induction files with
  | nil => cases h
  | cons f fs ih =>
    rw [agg_records, collect_all] at h
    rcases hcf : collect_file timeCol f with msg | recs
    · rw [hcf] at h
      exact ih h
    · rw [hcf] at h
      rcases List.mem_append.mp h with hl | hr
      · rcases collect_file_ok_cases hcf with rfl | ⟨df, _, rfl⟩
        · cases hl
        · obtain ⟨e, _, rfl, _, hdb, _⟩ := mem_file_qualifying.mp hl
          exact hdb
      · exact ih hr

/-- C1: a record of a `(rows, query)` group is retained by the aggregator iff
the three designated engines all appear in the group, the record's database
is one of the three, and its latency is strictly positive. -/
theorem aggregator_retention_iff (timeCol : String) (f : CsvFile) (df : Table)
    (hok : f.content = Except.ok df)
    (hcols : ((requiredCols timeCol).all fun c => df.cols.contains c) = true)
    (hq : df.cols.contains "query" = true) :
    collect_file timeCol f = Except.ok (file_qualifying f.name df.entries) ∧
    ∀ r : AggRec, r ∈ file_qualifying f.name df.entries ↔
      ∃ e ∈ df.entries, r = aggRecOf f.name e ∧ groupHasAll df.entries e ∧
        e.db ∈ target_dbs ∧ 0 < e.time := by
  constructor
  · unfold collect_file
    rw [hok]
    have h1 : ¬∃ x ∈ requiredCols timeCol, x ∉ df.cols := by
      rintro ⟨x, hx, hnx⟩
      exact hnx (by simpa using List.all_eq_true.mp hcols x hx)
    have h2 : "query" ∈ df.cols := by simpa using hq
    simp [h1, h2]
  · intro r
    exact mem_file_qualifying

theorem aggregator_retention_iff_witness :
    collect_file "Med_ms" c1File = Except.ok (file_qualifying c1File.name c1Table.entries) ∧
    ∀ r : AggRec, r ∈ file_qualifying c1File.name c1Table.entries ↔
      ∃ e ∈ c1Table.entries, r = aggRecOf c1File.name e ∧ groupHasAll c1Table.entries e ∧
        e.db ∈ target_dbs ∧ 0 < e.time :=
  aggregator_retention_iff "Med_ms" c1File c1Table rfl (by decide) (by decide)

/-- C4: when any required column is missing, the per-file renderer logs a
skip notice and returns normally (the body succeeds, raising no exception),
producing no output image and no chart. -/
theorem per_file_missing_columns_skip (timeCol : String) (savePlots : Bool)
    (f : CsvFile) (df : Table) (hok : f.content = Except.ok df)
    (hmiss : ((requiredCols timeCol).all fun c => df.cols.contains c) = false) :
    plot_query_performance_body timeCol savePlots f =
      Except.ok { log := [skipMessage timeCol f.name], image := none, chart := none } ∧
    plot_query_performance timeCol savePlots f =
      { log := [skipMessage timeCol f.name], image := none, chart := none } := by
  have hbody : plot_query_performance_body timeCol savePlots f =
      Except.ok { log := [skipMessage timeCol f.name], image := none, chart := none } := by
    unfold plot_query_performance_body
    rw [hok]
    have hmiss' : ∃ x ∈ requiredCols timeCol, x ∉ df.cols := by simpa using hmiss
    simp [hmiss', bind, Except.bind, pure, Except.pure]
  exact ⟨hbody, by unfold plot_query_performance; rw [hbody]⟩

theorem per_file_missing_columns_skip_witness :
    plot_query_performance_body "Med_ms" true c4File =
      Except.ok { log := [skipMessage "Med_ms" c4File.name], image := none, chart := none } ∧
    plot_query_performance "Med_ms" true c4File =
      { log := [skipMessage "Med_ms" c4File.name], image := none, chart := none } :=
  per_file_missing_columns_skip "Med_ms" true c4File c4Table rfl (by decide)

/-- C6: any exception raised while processing one file is caught and logged
with the file name and message, the function returns normally, and the
driver's loop still processes every other file exactly as before — one
malformed file never aborts the batch. -/
theorem per_file_exception_isolated (timeCol : String) (savePlots : Bool)
    (f : CsvFile) (msg : String)
    (herr : plot_query_performance_body timeCol savePlots f = Except.error msg)
    (pre post : List CsvFile) :
    plot_query_performance timeCol savePlots f =
      { log := [processErrorMessage f.name msg], image := none, chart := none } ∧
    run_files timeCol savePlots (pre ++ f :: post) =
      run_files timeCol savePlots pre ++
        { log := [processErrorMessage f.name msg], image := none, chart := none } ::
          run_files timeCol savePlots post ∧
    (process_all_csvs timeCol savePlots (pre ++ f :: post)).perFile =
      run_files timeCol savePlots (pre ++ f :: post) := by
  have hout : plot_query_performance timeCol savePlots f =
      { log := [processErrorMessage f.name msg], image := none, chart := none } := by
    unfold plot_query_performance
    rw [herr]
  refine ⟨hout, ?_, ?_⟩
  · rw [run_files_append]
    simp [run_files, hout]
  · have hne : (pre ++ f :: post).isEmpty = false := by cases pre <;> rfl
    simp [process_all_csvs, hne]

theorem per_file_exception_isolated_witness :
    plot_query_performance "Med_ms" true c6Bad =
      { log := [processErrorMessage c6Bad.name "ParserError"], image := none, chart := none } ∧
    run_files "Med_ms" true ([] ++ c6Bad :: [c6Good]) =
      run_files "Med_ms" true [] ++
        { log := [processErrorMessage c6Bad.name "ParserError"], image := none, chart := none } ::
          run_files "Med_ms" true [c6Good] ∧
    (process_all_csvs "Med_ms" true ([] ++ c6Bad :: [c6Good])).perFile =
      run_files "Med_ms" true ([] ++ c6Bad :: [c6Good]) :=
  per_file_exception_isolated "Med_ms" true c6Bad "ParserError" rfl [] [c6Good]

/-- C7: when the aggregator finds no qualifying records across all input
files, it logs the no-data notice and returns without producing a chart,
without an image, and without printing a summary table (the geometric means
are only ever computed for the chart and summary, so none is computed). -/
theorem aggregator_no_data_soft_exit (timeCol : String) (savePlots : Bool)
    (files : List CsvFile) (hne : files ≠ [])
    (hrecs : agg_records timeCol files = []) :
    plot_geometric_mean_performance timeCol savePlots files =
      { log := (collect_all timeCol files).2 ++ [noDataMessage],
        image := none, chart := none, summary := none } := by
  have h1 : files.isEmpty = false := by
    cases files with
    | nil => exact absurd rfl hne
    | cons a as => rfl
  have h2 : (agg_records timeCol files).isEmpty = true := by rw [hrecs]; rfl
  simp [plot_geometric_mean_performance, h1, h2]

theorem aggregator_no_data_soft_exit_witness :
    plot_geometric_mean_performance "Med_ms" true [c7File] =
      { log := (collect_all "Med_ms" [c7File]).2 ++ [noDataMessage],
        image := none, chart := none, summary := none } :=
  aggregator_no_data_soft_exit "Med_ms" true [c7File] (List.cons_ne_nil c7File []) (by decide)

/-- C10: a file with the three required columns but no query column passes
the aggregator's explicit validation, then fails in the grouping step with a
`KeyError`, which the per-file handler catches and logs; the file contributes
no records and the surrounding files are collected exactly as before. -/
theorem missing_query_column_isolated (timeCol : String) (f : CsvFile)
    (df : Table) (hok : f.content = Except.ok df)
    (hcols : ((requiredCols timeCol).all fun c => df.cols.contains c) = true)
    (hq : df.cols.contains "query" = false) (pre post : List CsvFile) :
    collect_file timeCol f = Except.error "query" ∧
    (collect_all timeCol (pre ++ f :: post)).1 =
      (collect_all timeCol pre).1 ++ (collect_all timeCol post).1 ∧
    (collect_all timeCol (pre ++ f :: post)).2 =
      (collect_all timeCol pre).2 ++
        readErrorMessage f.name "query" :: (collect_all timeCol post).2 := by
  have herr : collect_file timeCol f = Except.error "query" := by
    unfold collect_file
    rw [hok]
    have h1 : ¬∃ x ∈ requiredCols timeCol, x ∉ df.cols := by
      rintro ⟨x, hx, hnx⟩
      exact hnx (by simpa using List.all_eq_true.mp hcols x hx)
    have h2 : "query" ∉ df.cols := by simpa using hq
    simp [h1, h2]
  refine ⟨herr, ?_, ?_⟩
  · rw [collect_all_append]
    simp [collect_all, herr]
  · rw [collect_all_append]
    simp [collect_all, herr]

theorem missing_query_column_isolated_witness :
    collect_file "Med_ms" c10File = Except.error "query" ∧
    (collect_all "Med_ms" ([] ++ c10File :: [c10Other])).1 =
      (collect_all "Med_ms" []).1 ++ (collect_all "Med_ms" [c10Other]).1 ∧
    (collect_all "Med_ms" ([] ++ c10File :: [c10Other])).2 =
      (collect_all "Med_ms" []).2 ++
        readErrorMessage c10File.name "query" :: (collect_all "Med_ms" [c10Other]).2 :=
  missing_query_column_isolated "Med_ms" c10File c10Table rfl (by decide) (by decide) [] [c10Other]

/-- C2 counterexample: with three files, each holding exactly one engine's
measurement of `(query=Q1, rows=1000)` with latencies 10, 20 and 40, the
aggregator retains no record at all — each file's only group lacks the other
two engines — so no geometric mean is computed for rows=1000 (no chart and no
summary is produced), refuting the claimed value of about 21.5. -/
theorem aggregate_three_single_engine_files_refuted :
    agg_records "Med_ms" [c2FilePostgres, c2FileSQLite, c2FileHSQLDB] = [] ∧
    (plot_geometric_mean_performance "Med_ms" true
        [c2FilePostgres, c2FileSQLite, c2FileHSQLDB]).chart = none ∧
    (plot_geometric_mean_performance "Med_ms" true
        [c2FilePostgres, c2FileSQLite, c2FileHSQLDB]).summary = none := by
  have h1 : ([c2FilePostgres, c2FileSQLite, c2FileHSQLDB] : List CsvFile).isEmpty = false := rfl
  have h2 : (agg_records "Med_ms" [c2FilePostgres, c2FileSQLite, c2FileHSQLDB]).isEmpty = true := by
    decide
  refine ⟨by decide, ?_, ?_⟩ <;> simp [plot_geometric_mean_performance, h1, h2]

/-- C2 amended: on the three single-engine files of the claim, the
aggregator finds no qualifying `(query, rows)` group (the all-three-engines
check is applied within each file separately), logs the no-data notice, and
exits without chart, image, or summary. -/
theorem aggregate_three_single_engine_files_no_data :
    plot_geometric_mean_performance "Med_ms" true
        [c2FilePostgres, c2FileSQLite, c2FileHSQLDB] =
      { log := [noDataMessage], image := none, chart := none, summary := none } := by
  have h1 : ([c2FilePostgres, c2FileSQLite, c2FileHSQLDB] : List CsvFile).isEmpty = false := rfl
  have h2 : (agg_records "Med_ms" [c2FilePostgres, c2FileSQLite, c2FileHSQLDB]).isEmpty = true := by
    decide
  have h3 : (collect_all "Med_ms" [c2FilePostgres, c2FileSQLite, c2FileHSQLDB]).2 = [] := by decide
  simp [plot_geometric_mean_performance, h1, h2, h3]

/-- C5: for every `(database, row count)` pair present in a table, the pivot
holds exactly one aggregated row for that pair, and its value is the
arithmetic mean of all latency entries of the pair. -/
theorem pivot_one_mean_per_pair (es : List Entry) (d : String) (r : Int)
    (h : ∃ e ∈ es, e.db = d ∧ e.rows = r) :
    ((pivot_table es).filter fun p => p.1.1 == d && p.1.2 == r) =
      [((d, r), arithMean ((es.filter fun e => e.db == d && e.rows == r).map Entry.time))] := by
  obtain ⟨e, he, hd, hr⟩ := h
  have hk : (d, r) ∈ pivotKeys es := mem_pivotKeys.mpr ⟨e, he, by rw [hd, hr]⟩
  have hkeys : ((pivotKeys es).filter fun k => k.1 == d && k.2 == r) = [(d, r)] := by
    apply filter_eq_singleton_of_nodup (nodup_pivotKeys es) hk
    intro x
    cases x with
    | mk a b => simp [Prod.ext_iff]
  rw [pivot_table, List.filter_map]
  have hcomp : ((fun p : (String × Int) × ℚ => p.1.1 == d && p.1.2 == r) ∘
      fun k => (k, pivotVal es k)) = fun k : String × Int => k.1 == d && k.2 == r := rfl
  rw [hcomp, hkeys]
  simp [pivotVal]

theorem pivot_one_mean_per_pair_witness :
    ((pivot_table c5Entries).filter fun p => p.1.1 == "Postgres" && p.1.2 == 100) =
      [(("Postgres", 100),
        arithMean ((c5Entries.filter fun e =>
          e.db == "Postgres" && e.rows == 100).map Entry.time))] :=
  pivot_one_mean_per_pair c5Entries "Postgres" 100 (by decide)

/-- C8: in both renderers the bar width is `0.35` when the data holds at most
two distinct row counts and `0.2` otherwise — for the per-file chart the
distinct row counts of the table, for the aggregate chart the distinct row
counts of the qualifying records. -/
theorem bar_width_rule :
    (∀ es : List Entry, file_bar_width es =
      if ((es.map Entry.rows).dedup).length ≤ 2 then 35/100 else 1/5) ∧
    ∀ (timeCol : String) (files : List CsvFile), agg_bar_width timeCol files =
      if (((agg_records timeCol files).map AggRec.rows).dedup).length ≤ 2
      then 35/100 else 1/5 := by
  constructor
  · intro es
    rw [file_bar_width, file_rows, length_sortLe]
    have hmaps : (pivot_table es).map (fun p => p.1.2) =
        (pivotKeys es).map (fun k => k.2) := by
      rw [pivot_table, List.map_map]
      rfl
    have hmem : ∀ rc : Int,
        rc ∈ ((pivotKeys es).map fun k => k.2).dedup ↔
          rc ∈ (es.map Entry.rows).dedup := by
      intro rc
      rw [List.mem_dedup, List.mem_dedup, List.mem_map, List.mem_map]
      constructor
      · rintro ⟨k, hk, rfl⟩
        obtain ⟨e, he, hek⟩ := mem_pivotKeys.mp hk
        exact ⟨e, he, by rw [← hek]⟩
      · rintro ⟨e, he, rfl⟩
        exact ⟨(e.db, e.rows), mem_pivotKeys.mpr ⟨e, he, rfl⟩, rfl⟩
    have hperm : List.Perm (((pivotKeys es).map fun k => k.2).dedup)
        ((es.map Entry.rows).dedup) :=
      (List.perm_ext_iff_of_nodup (List.nodup_dedup _) (List.nodup_dedup _)).mpr hmem
    rw [hmaps, hperm.length_eq]
  · intro timeCol files
    rw [agg_bar_width, agg_rows, length_sortLe]

theorem file_available_dbs_eq (es : List Entry) :
    file_available_dbs es = ((pivotKeys es).map fun k => k.1).dedup := by
  rw [file_available_dbs, pivot_table, List.map_map]
  rfl

theorem mem_file_available_dbs {es : List Entry} {d : String} :
    d ∈ file_available_dbs es ↔ d ∈ es.map Entry.db := by
  rw [file_available_dbs_eq, List.mem_dedup, List.mem_map, List.mem_map]
  constructor
  · rintro ⟨k, hk, rfl⟩
    obtain ⟨e, he, hek⟩ := mem_pivotKeys.mp hk
    exact ⟨e, he, by rw [← hek]⟩
  · rintro ⟨e, he, rfl⟩
    exact ⟨(e.db, e.rows), mem_pivotKeys.mpr ⟨e, he, rfl⟩, rfl⟩

theorem pairwise_file_available_dbs (es : List Entry) :
    List.Pairwise (fun a b => strLeb a b = true) (file_available_dbs es) := by
  rw [file_available_dbs_eq]
  have h1 : List.Pairwise (fun a b => dbRowLeb a b = true) (pivotKeys es) :=
    pairwise_sortLe dbRowLeb_trans dbRowLeb_total _
  have h2 : List.Pairwise
      (fun a b : String × Int => strLeb a.1 b.1 = true) (pivotKeys es) := by
    apply h1.imp
    intro a b hab
    rw [strLeb_iff]
    rcases (dbRowLeb_iff a b).mp hab with h | ⟨h, _⟩
    · exact le_of_lt h
    · exact le_of_eq (by rw [h])
  exact List.Pairwise.sublist (List.dedup_sublist _) ((List.pairwise_map).mpr h2)

/-- C3 amended: in every chart the databases are ordered with the three
designated engines first, in their fixed preference order, when present in
the data, followed by every other database present in ascending lexicographic
name order (the pivot sorts its index, so the script's `unique()` sees the
databases sorted, not in input encounter order); the aggregate chart can only
contain the three designated engines. -/
theorem chart_db_order :
    (∀ es : List Entry, file_dbs es = dbOrderSpec (es.map Entry.db)) ∧
    ∀ (timeCol : String) (files : List CsvFile),
      agg_available_dbs timeCol files =
        dbOrderSpec ((agg_records timeCol files).map AggRec.db) := by
  constructor
  · intro es
    rw [file_dbs, dbOrderSpec]
    have hfirst : (preferred_order.filter fun db => (file_available_dbs es).contains db) =
        (preferred_order.filter fun d => (es.map Entry.db).contains d) := by
      apply List.filter_congr
      intro x hx
      rw [Bool.eq_iff_iff]
      simp [mem_file_available_dbs]
    have hsecond : ((file_available_dbs es).filter fun db =>
          !(preferred_order.filter fun d => (file_available_dbs es).contains d).contains db) =
        sortLe strLeb (((es.map Entry.db).filter fun d => !preferred_order.contains d).dedup) := by
      apply eq_of_perm_of_pairwise_le strLeb_anti
      · apply (List.perm_ext_iff_of_nodup ((List.nodup_dedup _).filter _)
          (nodup_sortLe (List.nodup_dedup _))).mpr
        intro d
        constructor
        · intro hmem
          rw [List.mem_filter] at hmem
          obtain ⟨hdA, hnp⟩ := hmem
          have hnp2 : d ∉ preferred_order ∨ d ∉ file_available_dbs es := by simpa using hnp
          have hnp' : d ∉ preferred_order := hnp2.resolve_right fun h => absurd hdA h
          rw [mem_sortLe, List.mem_dedup, List.mem_filter]
          exact ⟨mem_file_available_dbs.mp hdA, by simpa using hnp'⟩
        · intro hmem
          rw [mem_sortLe, List.mem_dedup, List.mem_filter] at hmem
          obtain ⟨hdraw, hnp⟩ := hmem
          have hnp' : d ∉ preferred_order := by simpa using hnp
          rw [List.mem_filter]
          exact ⟨mem_file_available_dbs.mpr hdraw,
            by simpa using (Or.inl hnp' : d ∉ preferred_order ∨ d ∉ file_available_dbs es)⟩
      · exact List.Pairwise.sublist (List.filter_sublist _) (pairwise_file_available_dbs es)
      · exact pairwise_sortLe strLeb_trans strLeb_total _
    rw [hsecond, hfirst]
  · intro timeCol files
    rw [agg_available_dbs, dbOrderSpec]
    have hflt : (((agg_records timeCol files).map AggRec.db).filter
        fun d => !preferred_order.contains d) = [] := by
      apply List.filter_eq_nil_iff.mpr
      intro d hd
      rw [List.mem_map] at hd
      obtain ⟨r, hr, rfl⟩ := hd
      have hdb : r.db ∈ preferred_order := agg_records_db_mem hr
      simp [hdb]
    have hcg : (db_order.filter fun d =>
          (((agg_records timeCol files).map AggRec.db).dedup).contains d) =
        (preferred_order.filter fun d =>
          ((agg_records timeCol files).map AggRec.db).contains d) := by
      apply List.filter_congr
      intro x hx
      rw [Bool.eq_iff_iff]
      simp [List.mem_dedup]
    rw [hcg, hflt]
    simp [sortLe]

/-- C3 counterexample: a table whose input rows name the databases in the
order `Zeta`, `Alpha` (neither of them preferred) is charted with database
order `Alpha`, `Zeta` — sorted order, not the first-encountered order
`Zeta`, `Alpha` the claim requires. -/
theorem chart_db_order_refuted :
    c3Table.entries.map Entry.db = ["Zeta", "Alpha"] ∧
    (plot_query_performance "Med_ms" true c3File).chart.map Chart.dbs =
      some ["Alpha", "Zeta"] ∧
    some ["Alpha", "Zeta"] ≠ some ["Zeta", "Alpha"] := by
  refine ⟨by decide, by decide, by decide⟩

theorem mem_rowLabels {α : Type} [LinearOrderedField α] (bw : ℚ) (i : ℕ) (m : α) :
    ∀ (vs : List α) (j₀ : ℕ) (lbl : BarLabel α),
      lbl ∈ rowLabels bw i m j₀ vs ↔
        ∃ (j : ℕ) (v : α), vs[j]? = some v ∧ 0 < v ∧
          lbl = ⟨(j₀ : ℚ) + (j : ℚ) + (i : ℚ) * bw, v + m * (2/100), v⟩ := by
  intro vs
  induction vs with
  | nil =>
    intro j₀ lbl
    simp [rowLabels]
  | cons v vs ih =>
    intro j₀ lbl
    rw [rowLabels, List.mem_append, ih (j₀ + 1)]
    constructor
    · rintro (hl | ⟨j, w, hj, hw, rfl⟩)
      · by_cases hv : 0 < v
        · rw [if_pos hv] at hl
          rcases List.mem_singleton.mp hl with rfl
          refine ⟨0, v, by simp, hv, ?_⟩
          simp
        · rw [if_neg hv] at hl
          cases hl
      · refine ⟨j + 1, w, by simpa using hj, hw, ?_⟩
        have : ((j₀ + 1 : ℕ) : ℚ) + (j : ℚ) = (j₀ : ℚ) + ((j + 1 : ℕ) : ℚ) := by
          push_cast
          ring
        rw [this]
    · rintro ⟨j, w, hj, hw, rfl⟩
      cases j with
      | zero =>
        rw [List.getElem?_cons_zero] at hj
        injection hj with hj
        subst hj
        left
        rw [if_pos hw]
        simp
      | succ j =>
        right
        refine ⟨j, w, by simpa using hj, hw, ?_⟩
        have : ((j₀ + 1 : ℕ) : ℚ) + (j : ℚ) = (j₀ : ℚ) + ((j + 1 : ℕ) : ℚ) := by
          push_cast
          ring
        rw [this]

theorem mem_makeLabels {α : Type} [LinearOrderedField α] (bw : ℚ) :
    ∀ (bars : List (Int × List α)) (i₀ : ℕ) (lbl : BarLabel α),
      lbl ∈ makeLabels bw i₀ bars ↔
        ∃ (i : ℕ) (rc : Int) (values : List α) (j : ℕ) (v : α),
          bars[i]? = some (rc, values) ∧ values[j]? = some v ∧ 0 < v ∧
            lbl = ⟨(j : ℚ) + ((i₀ : ℚ) + (i : ℚ)) * bw,
              v + barGroupMax values * (2/100), v⟩ := by
  intro bars
  induction bars with
  | nil =>
    intro i₀ lbl
    simp [makeLabels]
  | cons p rest ih =>
    rcases p with ⟨rc₀, values₀⟩
    intro i₀ lbl
    rw [makeLabels, List.mem_append, mem_rowLabels, ih (i₀ + 1)]
    constructor
    · rintro (⟨j, v, hj, hv, rfl⟩ | ⟨i, rc, values, j, v, hb, hj, hv, rfl⟩)
      · refine ⟨0, rc₀, values₀, j, v, by simp, hj, hv, ?_⟩
        norm_num
      · refine ⟨i + 1, rc, values, j, v, by simpa using hb, hj, hv, ?_⟩
        have : ((i₀ + 1 : ℕ) : ℚ) + (i : ℚ) = (i₀ : ℚ) + ((i + 1 : ℕ) : ℚ) := by
          push_cast
          ring
        rw [this]
    · rintro ⟨i, rc, values, j, v, hb, hj, hv, rfl⟩
      cases i with
      | zero =>
        rw [List.getElem?_cons_zero] at hb
        injection hb with hb
        rw [Prod.mk.injEq] at hb
        obtain ⟨h1, h2⟩ := hb
        subst h1
        subst h2
        left
        refine ⟨j, v, hj, hv, ?_⟩
        norm_num
      | succ i =>
        right
        refine ⟨i, rc, values, j, v, by simpa using hb, hj, hv, ?_⟩
        have : ((i₀ + 1 : ℕ) : ℚ) + (i : ℚ) = (i₀ : ℚ) + ((i + 1 : ℕ) : ℚ) := by
          push_cast
          ring
        rw [this]

theorem foldl_max_eq_foldr_max_zero {α : Type} [LinearOrderedField α] :
    ∀ (vs : List α) (v : α), 0 ≤ v → (∀ w ∈ vs, 0 ≤ w) →
      vs.foldl max v = List.foldr max 0 (v :: vs) := by
  intro vs
  induction vs with
  | nil =>
    intro v hv _
    simp [max_eq_left hv]
  | cons w ws ih =>
    intro v hv hall
    rw [List.foldl_cons,
      ih (max v w) (le_trans hv (le_max_left _ _)) (fun x hx => hall x (List.mem_cons_of_mem w hx))]
    simp [List.foldr_cons, ← max_assoc]

theorem barGroupMax_eq_specPosMax {α : Type} [LinearOrderedField α] {values : List α}
    (h : ∃ v ∈ values, 0 < v) : barGroupMax values = specPosMax values := by
  rw [barGroupMax, specPosMax]
  rcases hf : values.filter (fun v => decide (0 < v)) with _ | ⟨v, vs⟩
  · obtain ⟨v, hv, hv0⟩ := h
    have : v ∈ values.filter (fun v => decide (0 < v)) :=
      List.mem_filter.mpr ⟨hv, by simpa using hv0⟩
    rw [hf] at this
    cases this
  · have hpos : ∀ w ∈ v :: vs, 0 ≤ w := by
      intro w hw
      rw [← hf] at hw
      have := (List.mem_filter.mp hw).2
      exact le_of_lt (by simpa using this)
    exact foldl_max_eq_foldr_max_zero vs v (hpos v (List.mem_cons_self v vs))
      (fun w hw => hpos w (List.mem_cons_of_mem v hw))

theorem mem_makeLabels_labelSpec {α : Type} [LinearOrderedField α]
    (bw : ℚ) (bars : List (Int × List α)) (lbl : BarLabel α) :
    lbl ∈ makeLabels bw 0 bars ↔ labelSpec bw bars lbl := by
  rw [mem_makeLabels]
  unfold labelSpec
  constructor
  · rintro ⟨i, rc, values, j, v, hb, hj, hv, rfl⟩
    refine ⟨i, rc, values, j, v, hb, hj, hv, ?_⟩
    have hmax : barGroupMax values = specPosMax values :=
      barGroupMax_eq_specPosMax ⟨v, List.getElem?_mem hj, hv⟩
    rw [hmax]
    norm_num
  · rintro ⟨i, rc, values, j, v, hb, hj, hv, rfl⟩
    refine ⟨i, rc, values, j, v, hb, hj, hv, ?_⟩
    have hmax : barGroupMax values = specPosMax values :=
      barGroupMax_eq_specPosMax ⟨v, List.getElem?_mem hj, hv⟩
    rw [hmax]
    norm_num

/-- C9: in both charts, the labels are exactly one per bar with strictly
positive value, carrying the bar's value, at the bar's x position, offset
above the bar by 2% of the row-count group's maximum positive value; bars
with value zero (or any non-positive value) receive no label. -/
theorem value_labels_rule :
    (∀ (es : List Entry) (lbl : BarLabel ℚ),
      lbl ∈ file_labels es ↔ labelSpec (file_bar_width es) (file_bars es) lbl) ∧
    ∀ (timeCol : String) (files : List CsvFile) (lbl : BarLabel ℝ),
      lbl ∈ agg_labels timeCol files ↔
        labelSpec (agg_bar_width timeCol files) (agg_bars timeCol files) lbl := by
  constructor
  · intro es lbl
    rw [file_labels]
    exact mem_makeLabels_labelSpec _ _ _
  · intro timeCol files lbl
    rw [agg_labels]
    exact mem_makeLabels_labelSpec _ _ _
